import Mathlib

/-!
Verification of the AI support/debug agent (`ai_support_agent.py`).

The program is an interactive troubleshooting assistant: a knowledge base
maps issue-type names to ordered lists of debug steps; `debug_issue`
iterates the steps of one issue type, gates each step (and each
continuation) behind a console yes/no prompt, builds three crew tasks per
accepted step, and runs the crew, logging results and errors.

The shallow embedding below models the observable behaviour as pure
functions.  Console input, and the outcome of each crew kickoff (which is
an external network service that may also execute terminal commands
through the `terminal_command` tool), are passed in explicitly as scripted
data; every observable action (log lines, console prompts and prints,
`crew.tasks` assignments, kickoff invocations, and command executions) is
recorded in an event trace.  Running out of scripted console input or
kickoff outcomes models the program blocking; the function then returns
`none` in place of a final agent state.
-/

namespace AiSupportAgent

/-- Embedding of the `DebugStep` dataclass: one diagnostic step of the
knowledge base.  The `remediation` dict is modelled as an association
list, preserving key order. -/
structure DebugStep where
  command : String
  description : String
  expected_output : String
  remediation : List (String × String)
deriving DecidableEq

/-- The three crew agents created by `_setup_crew`: `executor_agent`,
`analyzer_agent` and `remediation_agent`. -/
inductive AgentRole
  | executor
  | analyzer
  | remediator
deriving DecidableEq

/-- Embedding of a crewai `Task` as built in `debug_issue`: a description,
an expected output, and the agent the task is assigned to. -/
structure TaskSpec where
  description : String
  expected_output : String
  agent : AgentRole
deriving DecidableEq

/-- Observable events of a run: logger error/info lines, console prompts
(an `input(...)` call showing its prompt text), plain console prints,
assignment of `crew.tasks` (a full replacement of the task list),
invocation of `crew.kickoff()` with the task list current at that moment,
and terminal-command executions performed via the `terminal_command`
tool during a kickoff. -/
inductive Event
  | logError (msg : String)
  | logInfo (msg : String)
  | prompt (text : String)
  | consolePrint (text : String)
  | setTasks (tasks : List TaskSpec)
  | kickoffCall (tasks : List TaskSpec)
  | execCommand (cmd : String)
deriving DecidableEq

/-- Python's `str.lower()` on console input, modelled character-wise:
`Char.toLower` mapped over the characters (the same character map
`String.toLower` performs, stated on the character list so that it
evaluates by reduction). -/
def pyLower (s : String) : String :=
  String.mk (s.data.map Char.toLower)

/-- Test `response in ['yes', 'y']` after `response = input(...).lower()`. -/
def isYes (s : String) : Bool :=
  pyLower s = "yes" || pyLower s = "y"

/-- Test `response in ['no', 'n']` after `response = input(...).lower()`. -/
def isNo (s : String) : Bool :=
  pyLower s = "no" || pyLower s = "n"

/-- A console answer accepted by the permission gate: case-insensitively
one of yes, y, no, n. -/
def validTok (s : String) : Bool :=
  isYes s || isNo s

/-- The f-string prompt shown by `ask_user_permission`. -/
def promptText (action : String) : String :=
  "\nShould I proceed with: " ++ action ++ "? (yes/no): "

/-- Embedding of `AIDebugAgent.ask_user_permission`.  The scripted console
inputs are consumed one per `input()` call; the function loops until an
accepted token arrives, printing a guidance line on any other input.
Result: the emitted events, and `some (answer, remainingInputs)`, or
`none` when the script runs out (the real program would block on
`input()` after printing the prompt). -/
def ask_user_permission (action : String) : List String → List Event × Option (Bool × List String)
  | [] => ([Event.prompt (promptText action)], none)
  | r :: rest =>
    if isYes r then
      ([Event.prompt (promptText action)], some (true, rest))
    else if isNo r then
      ([Event.prompt (promptText action)], some (false, rest))
    else
      let t := ask_user_permission action rest
      (Event.prompt (promptText action) :: Event.consolePrint "Please answer with 'yes' or 'no'" :: t.1, t.2)

/-- Index of the first scripted input accepted by the permission gate,
if any (specification-side helper for stating the gate's contract). -/
def firstValid : List String → Option Nat
  | [] => none
  | s :: rest => if validTok s then some 0 else (firstValid rest).map (· + 1)

/-- Number of events satisfying `p` in a trace. -/
def countEv (p : Event → Bool) (tr : List Event) : Nat :=
  (tr.filter p).length

def isPromptEv : Event → Bool
  | Event.prompt _ => true
  | _ => false

def isErrorEv : Event → Bool
  | Event.logError _ => true
  | _ => false

def isKickoffEv : Event → Bool
  | Event.kickoffCall _ => true
  | _ => false

def isExecEv : Event → Bool
  | Event.execCommand _ => true
  | _ => false

/-- Console prompts issued (`input()` calls) in a trace. -/
def countPrompts (tr : List Event) : Nat := countEv isPromptEv tr

/-- Error log lines in a trace. -/
def countErrors (tr : List Event) : Nat := countEv isErrorEv tr

/-- Crew kickoff invocations in a trace. -/
def countKickoffs (tr : List Event) : Nat := countEv isKickoffEv tr

/-- Terminal command executions in a trace. -/
def countExecs (tr : List Event) : Nat := countEv isExecEv tr

/-- The outcome of one `crew.kickoff()` call, scripted: the terminal
commands the crew's agents executed through the `terminal_command` tool
during the call, and either the final textual result (`Except.ok`) or the
message of the exception the external service raised (`Except.error`). -/
structure KickoffOutcome where
  execs : List String
  result : Except String String

/-- The scripted external world of a `debug_issue` run: the console input
queue and the queue of kickoff outcomes. -/
structure World where
  inputs : List String
  outcomes : List KickoffOutcome

/-- The mutable fields of an `AIDebugAgent` that `debug_issue` touches:
`self.knowledge_base` (an association list preserving JSON key order) and
`self.crew.tasks` (assigned anew before each kickoff; `_setup_crew`
initialises it to `[]`). -/
structure AgentState where
  knowledge_base : List (String × List DebugStep)
  crewTasks : List TaskSpec

/-- Rendering of `json.dumps(step['remediation'], indent=2)` used inside
the analyzer and remediator task descriptions. -/
def dumpsRemediation : List (String × String) → String
  | [] => "\x7b\x7d"
  | l =>
    "\x7b\n"
      ++ String.intercalate ",\n"
          (l.map fun p => "  \"" ++ p.1 ++ "\": \"" ++ p.2 ++ "\"")
      ++ "\n\x7d"

/-- The three tasks `debug_issue` builds for a step: `execute_task`
(executor agent), `analyze_task` (analyzer agent), `remediate_task`
(remediation agent), in that order. -/
def mkTasks (step : DebugStep) : List TaskSpec :=
  [ { description := "Execute command: " ++ step.command,
      expected_output := "Command execution output",
      agent := AgentRole.executor },
    { description :=
        "Analyze output for: " ++ step.description ++ "\n"
          ++ "Expected output: " ++ step.expected_output ++ "\n"
          ++ "Possible issues: " ++ dumpsRemediation step.remediation,
      expected_output := "Analysis of system state and identified issues",
      agent := AgentRole.analyzer },
    { description :=
        "Based on the analysis, implement the most appropriate fix from "
          ++ "these options:\n" ++ dumpsRemediation step.remediation,
      expected_output := "Implemented fix and its results",
      agent := AgentRole.remediator } ]

/-- Embedding of the `for step in debug_steps:` loop body of
`debug_issue`, from the current step onward.  Faithful to the source:
log the step; gate it (decline → log skip, `continue`); on accept,
build the three tasks, assign `crew.tasks`, kick off; on success log the
result; on an exception log the error and gate "Continue despite error?"
(decline → `break`); then gate "Continue to next step?" (decline → log
stop, `break`).  `none` as second component models blocking on console
input or on the external service. -/
def runSteps : AgentState → List DebugStep → World → List Event × Option AgentState
  | st, [], _ => ([], some st)
  | st, step :: rest, w =>
    let ev0 := Event.logInfo ("Step: " ++ step.description)
    let ask1 := ask_user_permission step.description w.inputs
    match ask1.2 with
    | none => (ev0 :: ask1.1, none)
    | some (false, inputs1) =>
      let tail := runSteps st rest { inputs := inputs1, outcomes := w.outcomes }
      (ev0 :: ask1.1 ++ Event.logInfo "User chose to skip this step" :: tail.1, tail.2)
    | some (true, inputs1) =>
      let tasks := mkTasks step
      let st1 : AgentState := { st with crewTasks := tasks }
      let pre := ev0 :: ask1.1 ++ [Event.setTasks tasks]
      match w.outcomes with
      | [] => (pre ++ [Event.kickoffCall tasks], none)
      | oc :: outcomes1 =>
        let kickEvs := Event.kickoffCall tasks :: oc.execs.map Event.execCommand
        match oc.result with
        | Except.ok res =>
          let pre2 := pre ++ kickEvs ++ [Event.logInfo ("Analysis result: " ++ res)]
          let ask3 := ask_user_permission "Continue to next step?" inputs1
          match ask3.2 with
          | none => (pre2 ++ ask3.1, none)
          | some (false, _) =>
            (pre2 ++ ask3.1 ++ [Event.logInfo "User chose to stop debugging"], some st1)
          | some (true, inputs3) =>
            let tail := runSteps st1 rest { inputs := inputs3, outcomes := outcomes1 }
            (pre2 ++ ask3.1 ++ tail.1, tail.2)
        | Except.error e =>
          let pre2 := pre ++ kickEvs ++ [Event.logError ("Error during task execution: " ++ e)]
          let ask2 := ask_user_permission "Continue despite error?" inputs1
          match ask2.2 with
          | none => (pre2 ++ ask2.1, none)
          | some (false, _) => (pre2 ++ ask2.1, some st1)
          | some (true, inputs2) =>
            let ask3 := ask_user_permission "Continue to next step?" inputs2
            match ask3.2 with
            | none => (pre2 ++ ask2.1 ++ ask3.1, none)
            | some (false, _) =>
              (pre2 ++ ask2.1 ++ ask3.1 ++ [Event.logInfo "User chose to stop debugging"], some st1)
            | some (true, inputs3) =>
              let tail := runSteps st1 rest { inputs := inputs3, outcomes := outcomes1 }
              (pre2 ++ ask2.1 ++ ask3.1 ++ tail.1, tail.2)

/-- Python dict key lookup on the association-list knowledge base
(`issue_type not in self.knowledge_base` / `self.knowledge_base[issue_type]`;
dict keys are unique, so first-match lookup agrees with dict lookup). -/
def lookupKB (kb : List (String × List DebugStep)) (issue : String) : Option (List DebugStep) :=
  (kb.find? fun p => p.1 == issue).map Prod.snd

/-- Embedding of `AIDebugAgent.debug_issue`: unknown issue types log one
error and return immediately; otherwise the step loop runs. -/
def debug_issue (st : AgentState) (issue : String) (w : World) : List Event × Option AgentState :=
  match lookupKB st.knowledge_base issue with
  | none => ([Event.logError ("Unknown issue type: " ++ issue)], some st)
  | some steps => runSteps st steps w

/-- How the launch of a command by `execute_terminal_command` goes:
either `subprocess.Popen` raises (carrying the exception text), or the
process starts and its combined stdout/stderr stream yields the given
lines (each `readline` result before end-of-file) and terminates. -/
inductive LaunchResult
  | failure (msg : String)
  | success (lines : List String)

/-- The `while True:` read loop of `execute_terminal_command`: each line
read is printed (echoed) and appended to `output`; an empty `readline`
result is neither printed nor appended (and ends the loop once the
process has exited).  Returns (echoed lines, `"".join(output)`). -/
def streamLoop : List String → List String × String
  | [] => ([], "")
  | line :: rest =>
    let t := streamLoop rest
    if line = "" then t else (line :: t.1, line ++ t.2)

/-- Embedding of `execute_terminal_command`.  It is a total function into
(echoed lines, returned string): the `try`/`except` converts any launch
failure into the string `"Error executing command: " ++ msg` instead of
propagating an exception. -/
def execute_terminal_command : LaunchResult → List String × String
  | LaunchResult.failure msg => ([], "Error executing command: " ++ msg)
  | LaunchResult.success lines => streamLoop lines

/-- Modelled from the spec: the structured (JSON) document shape of the
knowledge-base resource of §6 — a mapping from issue-type name to a list
of step objects with `command`, `description`, `expected_output` (strings)
and `remediation` (string-to-string mapping).  The source's
`_load_knowledge_base` is a bare `json.load`, and no serializer exists in
the repository, so document values and the encode/decode pair are
modelled here.  Objects are association lists, preserving key order. -/
inductive Json
  | str (s : String)
  | arr (items : List Json)
  | obj (fields : List (String × Json))

/-- Serialize a remediation mapping to a JSON object. -/
def encodeRemediation (r : List (String × String)) : Json :=
  Json.obj (r.map fun p => (p.1, Json.str p.2))

/-- Serialize one step to a JSON object with the four step fields. -/
def encodeStep (s : DebugStep) : Json :=
  Json.obj
    [ ("command", Json.str s.command),
      ("description", Json.str s.description),
      ("expected_output", Json.str s.expected_output),
      ("remediation", encodeRemediation s.remediation) ]

/-- Serialize a knowledge base to its JSON document. -/
def encodeKB (kb : List (String × List DebugStep)) : Json :=
  Json.obj (kb.map fun p => (p.1, Json.arr (p.2.map encodeStep)))

/-- Decode the fields of a remediation object. -/
def decodeRemFields : List (String × Json) → Option (List (String × String))
  | [] => some []
  | (k, Json.str v) :: rest => (decodeRemFields rest).map fun t => (k, v) :: t
  | _ => none

/-- Decode a remediation mapping. -/
def decodeRemediation : Json → Option (List (String × String))
  | Json.obj fields => decodeRemFields fields
  | _ => none

/-- Decode one step object. -/
def decodeStep : Json → Option DebugStep
  | Json.obj [(k1, Json.str c), (k2, Json.str d), (k3, Json.str e), (k4, r)] =>
    if k1 = "command" ∧ k2 = "description" ∧ k3 = "expected_output" ∧ k4 = "remediation" then
      (decodeRemediation r).map fun rem =>
        { command := c, description := d, expected_output := e, remediation := rem }
    else none
  | _ => none

/-- Decode a list of step objects. -/
def decodeSteps : List Json → Option (List DebugStep)
  | [] => some []
  | j :: rest =>
    match decodeStep j, decodeSteps rest with
    | some s, some t => some (s :: t)
    | _, _ => none

/-- Decode the top-level fields of a knowledge-base document. -/
def decodeKBFields : List (String × Json) → Option (List (String × List DebugStep))
  | [] => some []
  | (k, Json.arr items) :: rest =>
    match decodeSteps items, decodeKBFields rest with
    | some s, some t => some ((k, s) :: t)
    | _, _ => none
  | _ => none

/-- Modelled from the spec: `load(path) -> KnowledgeBase` of §4.3 — read
the structured document and deserialize it into the KnowledgeBase data
model (the source's `_load_knowledge_base` returns the `json.load`ed
mapping as-is; the document value stands in for the file contents). -/
def load_knowledge_base : Json → Option (List (String × List DebugStep))
  | Json.obj fields => decodeKBFields fields
  | _ => none

/-- Events that are only console interaction: prompts and prints. -/
def promptOrPrint : Event → Bool
  | Event.prompt _ => true
  | Event.consolePrint _ => true
  | _ => false

/-- Events that neither assign `crew.tasks` nor invoke a kickoff. -/
def plainEvent : Event → Bool
  | Event.setTasks _ => false
  | Event.kickoffCall _ => false
  | _ => true

/-- Every kickoff in the trace is immediately preceded by a full
replacement (`crew.tasks = ...`, an assignment, not an append) of the
task list with the very same list the kickoff then uses, and that list
is exactly `ts0`. -/
def pairedWith (ts0 : List TaskSpec) : List Event → Bool
  | Event.setTasks ts :: Event.kickoffCall ts' :: tr =>
    if ts = ts' ∧ ts = ts0 then pairedWith ts0 tr else false
  | Event.kickoffCall _ :: _ => false
  | _ :: tr => pairedWith ts0 tr
  | [] => true

/-- The per-iteration segmentation of the step loop's event trace:
branch for branch the same recursion as `runSteps`, but instead of one
flat trace it returns one list of events per iteration of the
`for step in debug_steps:` loop (the first segment holds exactly the
events of the first step's iteration, and so on; after a `break` or a
block no further segment arises, so the segments cover a prefix of the
steps).  `runSteps_eq_flatten_stepSegments` proves the flat trace is the
concatenation of these segments. -/
def stepSegments : AgentState → List DebugStep → World → List (List Event)
  | _, [], _ => []
  | st, step :: rest, w =>
    let ev0 := Event.logInfo ("Step: " ++ step.description)
    let ask1 := ask_user_permission step.description w.inputs
    match ask1.2 with
    | none => [ev0 :: ask1.1]
    | some (false, inputs1) =>
      (ev0 :: ask1.1 ++ [Event.logInfo "User chose to skip this step"])
        :: stepSegments st rest { inputs := inputs1, outcomes := w.outcomes }
    | some (true, inputs1) =>
      let tasks := mkTasks step
      let st1 : AgentState := { st with crewTasks := tasks }
      let pre := ev0 :: ask1.1 ++ [Event.setTasks tasks]
      match w.outcomes with
      | [] => [pre ++ [Event.kickoffCall tasks]]
      | oc :: outcomes1 =>
        let kickEvs := Event.kickoffCall tasks :: oc.execs.map Event.execCommand
        match oc.result with
        | Except.ok res =>
          let pre2 := pre ++ kickEvs ++ [Event.logInfo ("Analysis result: " ++ res)]
          let ask3 := ask_user_permission "Continue to next step?" inputs1
          match ask3.2 with
          | none => [pre2 ++ ask3.1]
          | some (false, _) =>
            [pre2 ++ ask3.1 ++ [Event.logInfo "User chose to stop debugging"]]
          | some (true, inputs3) =>
            (pre2 ++ ask3.1)
              :: stepSegments st1 rest { inputs := inputs3, outcomes := outcomes1 }
        | Except.error e =>
          let pre2 := pre ++ kickEvs ++ [Event.logError ("Error during task execution: " ++ e)]
          let ask2 := ask_user_permission "Continue despite error?" inputs1
          match ask2.2 with
          | none => [pre2 ++ ask2.1]
          | some (false, _) => [pre2 ++ ask2.1]
          | some (true, inputs2) =>
            let ask3 := ask_user_permission "Continue to next step?" inputs2
            match ask3.2 with
            | none => [pre2 ++ ask2.1 ++ ask3.1]
            | some (false, _) =>
              [pre2 ++ ask2.1 ++ ask3.1 ++ [Event.logInfo "User chose to stop debugging"]]
            | some (true, inputs3) =>
              (pre2 ++ ask2.1 ++ ask3.1)
                :: stepSegments st1 rest { inputs := inputs3, outcomes := outcomes1 }

/-! ## Helper lemmas -/

/-- The permission gate only touches the console: every event it emits is
a prompt or a guidance print. -/
theorem ask_events_promptOrPrint (action : String) (inputs : List String) :
    (ask_user_permission action inputs).1.all promptOrPrint = true := by
  induction inputs with
  | nil => rfl
  | cons r rest ih =>
    by_cases hy : isYes r = true
    · simp [ask_user_permission, hy, promptOrPrint]
    · by_cases hn : isNo r = true
      · simp [ask_user_permission, hy, hn, promptOrPrint]
      · simp [ask_user_permission, hy, hn, promptOrPrint, ih]

/-- The permission gate always shows its prompt first. -/
theorem ask_events_head (action : String) (inputs : List String) :
    ∃ tl, (ask_user_permission action inputs).1 = Event.prompt (promptText action) :: tl := by
  cases inputs with
  | nil => exact ⟨[], rfl⟩
  | cons r rest =>
    by_cases hy : isYes r = true
    · exact ⟨[], by simp [ask_user_permission, hy]⟩
    · by_cases hn : isNo r = true
      · exact ⟨[], by simp [ask_user_permission, hy, hn]⟩
      · exact ⟨Event.consolePrint "Please answer with 'yes' or 'no'"
            :: (ask_user_permission action rest).1,
          by simp [ask_user_permission, hy, hn]⟩

/-- Console-only events are neither task assignments nor kickoffs. -/
theorem promptOrPrint_plain (e : Event) (h : promptOrPrint e = true) : plainEvent e = true := by
  cases e <;> simp_all [promptOrPrint, plainEvent]

/-- Appending a string on the left of a `foldl`-append run. -/
theorem string_foldl_append (l : List String) :
    ∀ s : String, l.foldl (fun r t => r ++ t) s = s ++ String.join l := by
  induction l with
  | nil => intro s; simp [String.join]
  | cons a t ih =>
    intro s
    simp only [String.join, List.foldl_cons] at *
    rw [ih (s ++ a), ih ("" ++ a), String.empty_append, String.append_assoc]

/-- Unfolding of `String.join` over cons. -/
theorem string_join_cons (a : String) (t : List String) :
    String.join (a :: t) = a ++ String.join t := by
  show (a :: t).foldl (fun r s => r ++ s) "" = a ++ String.join t
  simp only [List.foldl_cons]
  rw [string_foldl_append t ("" ++ a), String.empty_append]

/-! ## Claim theorems -/

/-- Claim C1: for every knowledge base and every issue type `T` not
present as a key in it, `debug_issue T` logs exactly one error, performs
zero command executions, issues zero permission prompts, invokes the
orchestrator (crew kickoff) zero times, and returns (with the agent state
untouched). -/
theorem debug_issue_unknown_issue (st : AgentState) (issue : String) (w : World)
    (h : issue ∉ st.knowledge_base.map Prod.fst) :
    debug_issue st issue w = ([Event.logError ("Unknown issue type: " ++ issue)], some st)
      ∧ countErrors (debug_issue st issue w).1 = 1
      ∧ countPrompts (debug_issue st issue w).1 = 0
      ∧ countKickoffs (debug_issue st issue w).1 = 0
      ∧ countExecs (debug_issue st issue w).1 = 0 := by
  have hl : lookupKB st.knowledge_base issue = none := by
    have hf : st.knowledge_base.find? (fun p => p.1 == issue) = none := by
      rw [List.find?_eq_none]
      intro p hp
      simp only [beq_iff_eq]
      intro hpe
      exact h (hpe ▸ List.mem_map_of_mem Prod.fst hp)
    simp [lookupKB, hf]
  refine ⟨?_, ?_, ?_, ?_, ?_⟩ <;>
    simp [debug_issue, hl, countErrors, countPrompts, countKickoffs, countExecs,
      countEv, isErrorEv, isPromptEv, isKickoffEv, isExecEv]

/-- A sample knowledge base with one issue type and one step. -/
def stepSample : DebugStep :=
  { command := "top -b -n 1"
    description := "Check CPU usage"
    expected_output := "CPU usage report"
    remediation := [("kill_process", "Kill the offending process")] }

def kbSample : List (String × List DebugStep) :=
  [("high_cpu_usage", [stepSample])]

def stSample : AgentState := { knowledge_base := kbSample, crewTasks := [] }

/-- Witness for C1 at a concrete unknown issue type. -/
theorem debug_issue_unknown_issue_witness :
    debug_issue stSample "disk_full" { inputs := [], outcomes := [] }
        = ([Event.logError ("Unknown issue type: " ++ "disk_full")], some stSample)
      ∧ countErrors (debug_issue stSample "disk_full" { inputs := [], outcomes := [] }).1 = 1
      ∧ countPrompts (debug_issue stSample "disk_full" { inputs := [], outcomes := [] }).1 = 0
      ∧ countKickoffs (debug_issue stSample "disk_full" { inputs := [], outcomes := [] }).1 = 0
      ∧ countExecs (debug_issue stSample "disk_full" { inputs := [], outcomes := [] }).1 = 0 :=
  debug_issue_unknown_issue stSample "disk_full" { inputs := [], outcomes := [] } (by decide)

/-- Claim C2: `ask_user_permission` returns `true` precisely when the
first accepted console input (case-insensitively one of yes/y/no/n) is
affirmative, `false` precisely when it is negative, and it re-prompts on
every preceding unaccepted input: with the first accepted input at index
`k` it issues exactly `k + 1` prompts, and with no accepted input it
never returns (here: exhausts the scripted inputs and blocks). -/
theorem ask_user_permission_gate (action : String) (inputs : List String) :
    ((ask_user_permission action inputs).2 = none ↔ firstValid inputs = none)
    ∧ ∀ k, firstValid inputs = some k →
        validTok (inputs.getD k "") = true
        ∧ (ask_user_permission action inputs).2
            = some (isYes (inputs.getD k ""), inputs.drop (k + 1))
        ∧ countPrompts (ask_user_permission action inputs).1 = k + 1 := by
  induction inputs with
  | nil =>
    refine ⟨by simp [ask_user_permission, firstValid], ?_⟩
    intro k hk
    simp [firstValid] at hk
  | cons s rest ih =>
    by_cases hv : validTok s = true
    · have hfv : firstValid (s :: rest) = some 0 := by simp [firstValid, hv]
      constructor
      · rcases Bool.or_eq_true_iff.mp hv with hy | hn
        · simp [ask_user_permission, hy, hfv]
        · by_cases hy : isYes s = true <;> simp [ask_user_permission, hy, hn, hfv]
      · intro k hk
        rw [hfv] at hk
        cases hk
        refine ⟨by simpa using hv, ?_, ?_⟩
        · rcases Bool.or_eq_true_iff.mp hv with hy | hn
          · simp [ask_user_permission, hy]
          · by_cases hy : isYes s = true
            · simp [ask_user_permission, hy]
            · simp [ask_user_permission, hy, hn, Bool.eq_false_iff.mpr hy]
        · rcases Bool.or_eq_true_iff.mp hv with hy | hn
          · simp [ask_user_permission, hy, countPrompts, countEv, isPromptEv]
          · by_cases hy : isYes s = true <;>
              simp [ask_user_permission, hy, hn, countPrompts, countEv, isPromptEv]
    · have hy : ¬ isYes s = true := fun hy => hv (by simp [validTok, hy])
      have hn : ¬ isNo s = true := fun hn => hv (by simp [validTok, hn])
      have hask : ask_user_permission action (s :: rest)
          = (Event.prompt (promptText action)
              :: Event.consolePrint "Please answer with 'yes' or 'no'"
              :: (ask_user_permission action rest).1,
             (ask_user_permission action rest).2) := by
        simp [ask_user_permission, hy, hn]
      have hfv : firstValid (s :: rest) = (firstValid rest).map (· + 1) := by
        simp [firstValid, hv]
      constructor
      · rw [hask, hfv]
        simpa using ih.1
      · intro k hk
        rw [hfv] at hk
        rcases Option.map_eq_some'.mp hk with ⟨k', hk', rfl⟩
        rcases ih.2 k' hk' with ⟨h1, h2, h3⟩
        refine ⟨by simpa using h1, ?_, ?_⟩
        · rw [hask]
          simpa using h2
        · rw [hask]
          simp [countPrompts, countEv, isPromptEv] at h3 ⊢
          omega

/-- Witness for C2: an unaccepted input followed by an accepted negative
answer. -/
theorem ask_user_permission_gate_witness :
    validTok (["hmm", "N"].getD 1 "") = true
    ∧ (ask_user_permission "Check CPU usage" ["hmm", "N"]).2
        = some (isYes (["hmm", "N"].getD 1 ""), ["hmm", "N"].drop (1 + 1))
    ∧ countPrompts (ask_user_permission "Check CPU usage" ["hmm", "N"]).1 = 1 + 1 :=
  (ask_user_permission_gate "Check CPU usage" ["hmm", "N"]).2 1 (by decide)

/-- Claim C4: `execute_terminal_command` is a total function into a
result string — the `try`/`except` converts a failed launch into a
return value instead of an exception — and on a failed launch the result
carries the identifiable marker `"Error executing command: "` as its
prefix (nothing is echoed). -/
theorem execute_terminal_command_never_raises (msg : String) :
    execute_terminal_command (LaunchResult.failure msg)
        = ([], "Error executing command: " ++ msg)
      ∧ ∃ tail, (execute_terminal_command (LaunchResult.failure msg)).2
          = "Error executing command: " ++ tail :=
  ⟨rfl, msg, rfl⟩

/-- Claim C6: for every command whose process launches and terminates
(its stream yielding the given non-empty lines before end-of-file),
`execute_terminal_command` echoes exactly those lines in arrival order
and returns exactly their concatenation in arrival order. -/
theorem execute_terminal_command_streams (lines : List String)
    (h : ∀ l ∈ lines, l ≠ "") :
    execute_terminal_command (LaunchResult.success lines)
      = (lines, String.join lines) := by
  induction lines with
  | nil => rfl
  | cons a t ih =>
    have ha : ¬ a = "" := h a (List.mem_cons_self a t)
    have ih2 : streamLoop t = (t, String.join t) :=
      ih fun l hl => h l (List.mem_cons_of_mem a hl)
    show streamLoop (a :: t) = (a :: t, String.join (a :: t))
    simp [streamLoop, ha, ih2, string_join_cons]

/-- Witness for C6 on a two-line output. -/
theorem execute_terminal_command_streams_witness :
    execute_terminal_command (LaunchResult.success ["total 0\n", "drwx data\n"])
      = (["total 0\n", "drwx data\n"], String.join ["total 0\n", "drwx data\n"]) :=
  execute_terminal_command_streams ["total 0\n", "drwx data\n"] (by decide)

/-- Claim C10: an issue type present in the knowledge base but mapped to
an empty step sequence produces an empty trace — zero permission
prompts, zero kickoffs, zero error logs — and `debug_issue` returns
normally with the state untouched. -/
theorem debug_issue_empty_steps (st : AgentState) (issue : String) (w : World)
    (h : lookupKB st.knowledge_base issue = some []) :
    debug_issue st issue w = ([], some st)
      ∧ countPrompts (debug_issue st issue w).1 = 0
      ∧ countKickoffs (debug_issue st issue w).1 = 0
      ∧ countErrors (debug_issue st issue w).1 = 0 := by
  refine ⟨?_, ?_, ?_, ?_⟩ <;>
    simp [debug_issue, h, runSteps, countPrompts, countKickoffs, countErrors,
      countEv, isPromptEv, isKickoffEv, isErrorEv]

def kbEmptySample : List (String × List DebugStep) :=
  [("noop_issue", [])]

def stEmptySample : AgentState := { knowledge_base := kbEmptySample, crewTasks := [] }

/-- Witness for C10 at a concrete issue type with no steps. -/
theorem debug_issue_empty_steps_witness :
    debug_issue stEmptySample "noop_issue" { inputs := ["y"], outcomes := [] }
        = ([], some stEmptySample)
      ∧ countPrompts (debug_issue stEmptySample "noop_issue" { inputs := ["y"], outcomes := [] }).1 = 0
      ∧ countKickoffs (debug_issue stEmptySample "noop_issue" { inputs := ["y"], outcomes := [] }).1 = 0
      ∧ countErrors (debug_issue stEmptySample "noop_issue" { inputs := ["y"], outcomes := [] }).1 = 0 :=
  debug_issue_empty_steps stEmptySample "noop_issue" { inputs := ["y"], outcomes := [] } (by rfl)

/-- Decoding inverts encoding on remediation object fields. -/
theorem decodeRemFields_map (r : List (String × String)) :
    decodeRemFields (r.map fun p => (p.1, Json.str p.2)) = some r := by
  induction r with
  | nil => rfl
  | cons p t ih => simp [decodeRemFields, ih]

/-- Decoding inverts encoding on remediation mappings. -/
theorem decodeRemediation_encode (r : List (String × String)) :
    decodeRemediation (encodeRemediation r) = some r := by
  simp [decodeRemediation, encodeRemediation, decodeRemFields_map]

/-- Decoding inverts encoding on single steps. -/
theorem decodeStep_encode (s : DebugStep) :
    decodeStep (encodeStep s) = some s := by
  simp [decodeStep, encodeStep, decodeRemediation_encode]

/-- Decoding inverts encoding on step lists. -/
theorem decodeSteps_map (l : List DebugStep) :
    decodeSteps (l.map encodeStep) = some l := by
  induction l with
  | nil => rfl
  | cons s t ih => simp [decodeSteps, decodeStep_encode, ih]

/-- Decoding inverts encoding on the top-level knowledge-base fields. -/
theorem decodeKBFields_map (kb : List (String × List DebugStep)) :
    decodeKBFields (kb.map fun p => (p.1, Json.arr (p.2.map encodeStep))) = some kb := by
  induction kb with
  | nil => rfl
  | cons p t ih => simp [decodeKBFields, decodeSteps_map, ih]

/-- Loading inverts serialization on every knowledge base. -/
theorem load_knowledge_base_encodeKB (kb : List (String × List DebugStep)) :
    load_knowledge_base (encodeKB kb) = some kb := by
  simp [load_knowledge_base, encodeKB, decodeKBFields_map]

/-- Claim C9: loading a knowledge-base document and re-serializing the
loaded structure reproduces an equivalent mapping — loading the
re-serialized document yields exactly the structure loaded from the
original document: the same key set, the same step order within each
issue type, and the same field values. -/
theorem load_reserialize_roundtrip (doc : Json) (kb : List (String × List DebugStep))
    (h : load_knowledge_base doc = some kb) :
    load_knowledge_base (encodeKB kb) = some kb ∧
      (load_knowledge_base (encodeKB kb)).map (List.map Prod.fst)
        = (load_knowledge_base doc).map (List.map Prod.fst) := by
  refine ⟨load_knowledge_base_encodeKB kb, ?_⟩
  rw [h, load_knowledge_base_encodeKB kb]

/-- A concrete knowledge-base document for the C9 witness. -/
def docSample : Json := encodeKB kbSample

/-- Witness for C9 on a concrete document. -/
theorem load_reserialize_roundtrip_witness :
    load_knowledge_base (encodeKB kbSample) = some kbSample ∧
      (load_knowledge_base (encodeKB kbSample)).map (List.map Prod.fst)
        = (load_knowledge_base docSample).map (List.map Prod.fst) :=
  load_reserialize_roundtrip docSample kbSample (load_knowledge_base_encodeKB kbSample)

/-- Claim C3: when a step's permission prompt is declined, the run of
the remaining script from that step is exactly: the step's log line, the
gate's console events (all of them prompts or guidance prints — in
particular no `crew.tasks` assignment, no kickoff and no command
execution), the skipped-step log line, and then immediately the run of
the next steps — so the controller advances directly to the next step's
gating decision (or completes if the skipped step was last) and the
continue-to-next-step question is never asked for the skipped step. -/
theorem debug_step_declined (st : AgentState) (step : DebugStep) (rest : List DebugStep)
    (w : World) (inputs1 : List String)
    (h : (ask_user_permission step.description w.inputs).2 = some (false, inputs1)) :
    runSteps st (step :: rest) w
        = (Event.logInfo ("Step: " ++ step.description)
            :: (ask_user_permission step.description w.inputs).1
            ++ Event.logInfo "User chose to skip this step"
            :: (runSteps st rest { inputs := inputs1, outcomes := w.outcomes }).1,
           (runSteps st rest { inputs := inputs1, outcomes := w.outcomes }).2)
      ∧ (ask_user_permission step.description w.inputs).1.all promptOrPrint = true := by
  refine ⟨?_, ask_events_promptOrPrint _ _⟩
  simp [runSteps, h]

/-- Witness for C3: the single step of the sample knowledge base is
declined, so the session completes with no kickoff. -/
theorem debug_step_declined_witness :
    runSteps stSample [stepSample] { inputs := ["n"], outcomes := [] }
        = (Event.logInfo ("Step: " ++ stepSample.description)
            :: (ask_user_permission stepSample.description ["n"]).1
            ++ Event.logInfo "User chose to skip this step"
            :: (runSteps stSample [] { inputs := [], outcomes := [] }).1,
           (runSteps stSample [] { inputs := [], outcomes := [] }).2)
      ∧ (ask_user_permission stepSample.description ["n"]).1.all promptOrPrint = true :=
  debug_step_declined stSample stepSample [] { inputs := ["n"], outcomes := [] } [] (by rfl)

/-- The step loop never writes the knowledge base: whenever it returns a
final state, that state's knowledge base is the incoming one. -/
theorem runSteps_kb_eq : ∀ (steps : List DebugStep) (st st' : AgentState) (w : World),
    (runSteps st steps w).2 = some st' → st'.knowledge_base = st.knowledge_base := by
  intro steps
  induction steps with
  | nil =>
    intro st st' w h
    simp [runSteps] at h
    rw [← h]
  | cons step rest ih =>
    intro st st' w h
    simp only [runSteps] at h
    split at h
    · simp at h
    · exact ih st st' _ h
    · split at h
      · simp at h
      · split at h
        · split at h
          · simp at h
          · simp at h
            subst h
            rfl
          · dsimp only at h
            exact ih { knowledge_base := st.knowledge_base, crewTasks := mkTasks step } st' _ h
        · split at h
          · simp at h
          · simp at h
            subst h
            rfl
          · split at h
            · simp at h
            · simp at h
              subst h
              rfl
            · dsimp only at h
              exact ih { knowledge_base := st.knowledge_base, crewTasks := mkTasks step } st' _ h

/-- Claim C8: the knowledge base is read-only during a session — for
every issue type, every scripted sequence of user responses and every
scripted sequence of orchestrator outcomes, whenever `debug_issue`
returns, the final state's `knowledge_base` equals the one loaded at
construction (only `crew.tasks` is ever reassigned). -/
theorem debug_issue_preserves_knowledge_base (st st' : AgentState) (issue : String) (w : World)
    (h : (debug_issue st issue w).2 = some st') :
    st'.knowledge_base = st.knowledge_base := by
  unfold debug_issue at h
  rcases hl : lookupKB st.knowledge_base issue with _ | steps
  · rw [hl] at h
    simp at h
    rw [← h]
  · rw [hl] at h
    exact runSteps_kb_eq steps st st' w h

def wSample : World := { inputs := ["y", "y"], outcomes := [⟨[], Except.ok "all good"⟩] }

/-- Witness for C8: a full accepted run of the sample issue returns with
the knowledge base unchanged. -/
theorem debug_issue_preserves_knowledge_base_witness :
    ({ knowledge_base := kbSample, crewTasks := mkTasks stepSample } : AgentState).knowledge_base
      = stSample.knowledge_base :=
  debug_issue_preserves_knowledge_base stSample
    { knowledge_base := kbSample, crewTasks := mkTasks stepSample }
    "high_cpu_usage" wSample (by rfl)

/-- Claim C5: when the orchestrator raises on a step (the kickoff
outcome is an exception) the error is logged and the user is gated.
First part — the user declines "Continue despite error?": the run ends
right after that gate (no later step contributes any event, no
continue-to-next-step question is asked) and the controller returns.
Second part — the user accepts: the very next event after the gate is
the "Continue to next step?" prompt. -/
theorem debug_issue_orchestrator_error (st : AgentState) (step : DebugStep)
    (rest : List DebugStep) (w : World) (inputs1 : List String)
    (oc : KickoffOutcome) (outcomes1 : List KickoffOutcome) (e : String)
    (hask : (ask_user_permission step.description w.inputs).2 = some (true, inputs1))
    (houtc : w.outcomes = oc :: outcomes1)
    (herr : oc.result = Except.error e) :
    (∀ inputs2,
      (ask_user_permission "Continue despite error?" inputs1).2 = some (false, inputs2) →
        runSteps st (step :: rest) w
          = (Event.logInfo ("Step: " ++ step.description)
              :: (ask_user_permission step.description w.inputs).1
              ++ [Event.setTasks (mkTasks step)]
              ++ Event.kickoffCall (mkTasks step) :: oc.execs.map Event.execCommand
              ++ [Event.logError ("Error during task execution: " ++ e)]
              ++ (ask_user_permission "Continue despite error?" inputs1).1,
             some { st with crewTasks := mkTasks step }))
    ∧ (∀ inputs2,
      (ask_user_permission "Continue despite error?" inputs1).2 = some (true, inputs2) →
        ∃ tl r, runSteps st (step :: rest) w
          = (Event.logInfo ("Step: " ++ step.description)
              :: (ask_user_permission step.description w.inputs).1
              ++ [Event.setTasks (mkTasks step)]
              ++ Event.kickoffCall (mkTasks step) :: oc.execs.map Event.execCommand
              ++ [Event.logError ("Error during task execution: " ++ e)]
              ++ (ask_user_permission "Continue despite error?" inputs1).1
              ++ Event.prompt (promptText "Continue to next step?") :: tl,
             r)) := by
  constructor
  · intro inputs2 h2
    simp [runSteps, hask, houtc, herr, h2]
  · intro inputs2 h2
    obtain ⟨tl0, htl0⟩ := ask_events_head "Continue to next step?" inputs2
    rcases hask3 : (ask_user_permission "Continue to next step?" inputs2).2 with _ | ⟨b3, inputs3⟩
    · refine ⟨tl0, none, ?_⟩
      simp [runSteps, hask, houtc, herr, h2, hask3, htl0]
    · cases b3 with
      | false =>
        refine ⟨tl0 ++ [Event.logInfo "User chose to stop debugging"],
          some { st with crewTasks := mkTasks step }, ?_⟩
        simp [runSteps, hask, houtc, herr, h2, hask3, htl0]
      | true =>
        refine ⟨tl0 ++ (runSteps { st with crewTasks := mkTasks step } rest
            { inputs := inputs3, outcomes := outcomes1 }).1,
          (runSteps { st with crewTasks := mkTasks step } rest
            { inputs := inputs3, outcomes := outcomes1 }).2, ?_⟩
        simp [runSteps, hask, houtc, herr, h2, hask3, htl0]

def ocErrSample : KickoffOutcome :=
  { execs := ["top -b -n 1"], result := Except.error "service unavailable" }

def wErrSample : World := { inputs := ["y", "n"], outcomes := [ocErrSample] }

/-- Witness for C5: the kickoff raises and the user declines continuing,
so the session aborts right after the error gate. -/
theorem debug_issue_orchestrator_error_witness :
    runSteps stSample [stepSample] wErrSample
      = (Event.logInfo ("Step: " ++ stepSample.description)
          :: (ask_user_permission stepSample.description wErrSample.inputs).1
          ++ [Event.setTasks (mkTasks stepSample)]
          ++ Event.kickoffCall (mkTasks stepSample) :: ocErrSample.execs.map Event.execCommand
          ++ [Event.logError ("Error during task execution: " ++ "service unavailable")]
          ++ (ask_user_permission "Continue despite error?" ["n"]).1,
         some { stSample with crewTasks := mkTasks stepSample }) :=
  (debug_issue_orchestrator_error stSample stepSample [] wErrSample ["n"] ocErrSample []
    "service unavailable" (by rfl) (by rfl) (by rfl)).1 [] (by rfl)

/-- Stepping over a console-only or logging event leaves the paired
kickoff check unchanged (per-constructor reductions). -/
theorem paired_cons_logError (ts0 : List TaskSpec) (m : String) (tr : List Event) :
    pairedWith ts0 (Event.logError m :: tr) = pairedWith ts0 tr := rfl

theorem paired_cons_logInfo (ts0 : List TaskSpec) (m : String) (tr : List Event) :
    pairedWith ts0 (Event.logInfo m :: tr) = pairedWith ts0 tr := rfl

theorem paired_cons_prompt (ts0 : List TaskSpec) (m : String) (tr : List Event) :
    pairedWith ts0 (Event.prompt m :: tr) = pairedWith ts0 tr := rfl

theorem paired_cons_consolePrint (ts0 : List TaskSpec) (m : String) (tr : List Event) :
    pairedWith ts0 (Event.consolePrint m :: tr) = pairedWith ts0 tr := rfl

theorem paired_cons_exec (ts0 : List TaskSpec) (c : String) (tr : List Event) :
    pairedWith ts0 (Event.execCommand c :: tr) = pairedWith ts0 tr := rfl

theorem paired_nil (ts0 : List TaskSpec) :
    pairedWith ts0 [] = true := rfl

/-- Stepping over any single non-task, non-kickoff event. -/
theorem pairedWith_cons_plain (ts0 : List TaskSpec) (e : Event) (tr : List Event)
    (he : plainEvent e = true) :
    pairedWith ts0 (e :: tr) = pairedWith ts0 tr := by
  cases e with
  | logError m => rfl
  | logInfo m => rfl
  | prompt m => rfl
  | consolePrint m => rfl
  | setTasks ts => simp [plainEvent] at he
  | kickoffCall ts => simp [plainEvent] at he
  | execCommand c => rfl

/-- Skipping a prefix of non-task, non-kickoff events. -/
theorem pairedWith_append_plain (ts0 : List TaskSpec) :
    ∀ tr1 tr2 : List Event, tr1.all plainEvent = true →
      pairedWith ts0 (tr1 ++ tr2) = pairedWith ts0 tr2 := by
  intro tr1
  induction tr1 with
  | nil => intro tr2 _; rfl
  | cons e t ih =>
    intro tr2 h
    simp only [List.all_cons, Bool.and_eq_true] at h
    rw [List.cons_append, pairedWith_cons_plain ts0 e (t ++ tr2) h.1, ih tr2 h.2]

/-- A trace with no task assignment and no kickoff passes the check. -/
theorem pairedWith_all_plain (ts0 : List TaskSpec) :
    ∀ tr : List Event, tr.all plainEvent = true → pairedWith ts0 tr = true := by
  intro tr
  induction tr with
  | nil => intro _; rfl
  | cons e t ih =>
    intro h
    simp only [List.all_cons, Bool.and_eq_true] at h
    rw [pairedWith_cons_plain ts0 e t h.1]
    exact ih h.2

/-- Consuming the assignment/kickoff pair that carries exactly `ts0`. -/
theorem pairedWith_pair (ts0 : List TaskSpec) (tr : List Event) :
    pairedWith ts0 (Event.setTasks ts0 :: Event.kickoffCall ts0 :: tr)
      = pairedWith ts0 tr := by
  simp [pairedWith]

/-- The permission gate emits no task assignment and no kickoff. -/
theorem ask_events_plain (action : String) (inputs : List String) :
    (ask_user_permission action inputs).1.all plainEvent = true := by
  have h := ask_events_promptOrPrint action inputs
  rw [List.all_eq_true] at h ⊢
  intro e he
  exact promptOrPrint_plain e (h e he)

/-- Command-execution events are neither assignments nor kickoffs. -/
theorem exec_events_plain (cmds : List String) :
    (cmds.map Event.execCommand).all plainEvent = true := by
  rw [List.all_eq_true]
  intro e he
  rcases List.mem_map.mp he with ⟨c, _, rfl⟩
  rfl

/-- Skipping the gate's events in the paired kickoff check. -/
theorem paired_append_ask (ts0 : List TaskSpec) (a : String) (l : List String)
    (tr : List Event) :
    pairedWith ts0 ((ask_user_permission a l).1 ++ tr) = pairedWith ts0 tr :=
  pairedWith_append_plain ts0 _ tr (ask_events_plain a l)

/-- Skipping command-execution events in the paired kickoff check. -/
theorem paired_append_execs (ts0 : List TaskSpec) (cmds : List String) (tr : List Event) :
    pairedWith ts0 (cmds.map Event.execCommand ++ tr) = pairedWith ts0 tr :=
  pairedWith_append_plain ts0 _ tr (exec_events_plain cmds)

/-- The flat trace of the step loop is the concatenation of its
per-iteration segments. -/
theorem runSteps_eq_flatten_stepSegments :
    ∀ (steps : List DebugStep) (st : AgentState) (w : World),
      (runSteps st steps w).1 = (stepSegments st steps w).flatten := by
  intro steps
  induction steps with
  | nil => intro st w; rfl
  | cons step rest ih =>
    intro st w
    rcases hask : (ask_user_permission step.description w.inputs).2 with _ | ⟨b, i1⟩
    · simp [runSteps, stepSegments, hask]
    · cases b with
      | false => simp [runSteps, stepSegments, hask, ih]
      | true =>
        rcases houtc : w.outcomes with _ | ⟨oc, outcomes1⟩
        · simp [runSteps, stepSegments, hask, houtc]
        · rcases hres : oc.result with e | res
          · rcases hask2 : (ask_user_permission "Continue despite error?" i1).2
              with _ | ⟨b2, i2⟩
            · simp [runSteps, stepSegments, hask, houtc, hres, hask2]
            · cases b2 with
              | false => simp [runSteps, stepSegments, hask, houtc, hres, hask2]
              | true =>
                rcases hask3 : (ask_user_permission "Continue to next step?" i2).2
                  with _ | ⟨b3, i3⟩
                · simp [runSteps, stepSegments, hask, houtc, hres, hask2, hask3]
                · cases b3 with
                  | false => simp [runSteps, stepSegments, hask, houtc, hres, hask2, hask3]
                  | true => simp [runSteps, stepSegments, hask, houtc, hres, hask2, hask3, ih]
          · rcases hask3 : (ask_user_permission "Continue to next step?" i1).2
              with _ | ⟨b3, i3⟩
            · simp [runSteps, stepSegments, hask, houtc, hres, hask3]
            · cases b3 with
              | false => simp [runSteps, stepSegments, hask, houtc, hres, hask3]
              | true => simp [runSteps, stepSegments, hask, houtc, hres, hask3, ih]

/-- Each per-iteration segment pairs its kickoffs (if any) with a full
replacement carrying exactly the task list of that iteration's step: the
i-th segment checks against `mkTasks` of the i-th step. -/
theorem stepSegments_pairedWith :
    ∀ (steps : List DebugStep) (st : AgentState) (w : World),
      List.Forall₂ (fun s seg => pairedWith (mkTasks s) seg = true)
        (steps.take (stepSegments st steps w).length) (stepSegments st steps w) := by
  intro steps
  induction steps with
  | nil =>
    intro st w
    exact List.Forall₂.nil
  | cons step rest ih =>
    intro st w
    rcases hask : (ask_user_permission step.description w.inputs).2 with _ | ⟨b, i1⟩
    · simp only [stepSegments, hask, List.length_cons, List.length_nil, List.take_succ_cons,
        List.take_zero]
      refine List.Forall₂.cons ?_ List.Forall₂.nil
      rw [paired_cons_logInfo]
      exact pairedWith_all_plain _ _ (ask_events_plain _ _)
    · cases b with
      | false =>
        simp only [stepSegments, hask, List.length_cons, List.take_succ_cons]
        refine List.Forall₂.cons ?_ (ih st _)
        simp only [List.cons_append, List.append_assoc, List.nil_append,
          paired_cons_logInfo, paired_append_ask, paired_nil]
      | true =>
        rcases houtc : w.outcomes with _ | ⟨oc, outcomes1⟩
        · simp only [stepSegments, hask, houtc, List.length_cons, List.length_nil,
            List.take_succ_cons, List.take_zero]
          refine List.Forall₂.cons ?_ List.Forall₂.nil
          simp only [List.cons_append, List.append_assoc, List.nil_append,
            paired_cons_logInfo, paired_append_ask, pairedWith_pair, paired_nil]
        · rcases hres : oc.result with e | res
          · rcases hask2 : (ask_user_permission "Continue despite error?" i1).2
              with _ | ⟨b2, i2⟩
            · simp only [stepSegments, hask, houtc, hres, hask2, List.length_cons,
                List.length_nil, List.take_succ_cons, List.take_zero]
              refine List.Forall₂.cons ?_ List.Forall₂.nil
              simp only [List.cons_append, List.append_assoc, List.nil_append,
                paired_cons_logInfo, paired_cons_logError, paired_append_ask,
                pairedWith_pair, paired_append_execs]
              exact pairedWith_all_plain _ _ (ask_events_plain _ _)
            · cases b2 with
              | false =>
                simp only [stepSegments, hask, houtc, hres, hask2, List.length_cons,
                  List.length_nil, List.take_succ_cons, List.take_zero]
                refine List.Forall₂.cons ?_ List.Forall₂.nil
                simp only [List.cons_append, List.append_assoc, List.nil_append,
                  paired_cons_logInfo, paired_cons_logError, paired_append_ask,
                  pairedWith_pair, paired_append_execs]
                exact pairedWith_all_plain _ _ (ask_events_plain _ _)
              | true =>
                rcases hask3 : (ask_user_permission "Continue to next step?" i2).2
                  with _ | ⟨b3, i3⟩
                · simp only [stepSegments, hask, houtc, hres, hask2, hask3, List.length_cons,
                    List.length_nil, List.take_succ_cons, List.take_zero]
                  refine List.Forall₂.cons ?_ List.Forall₂.nil
                  simp only [List.cons_append, List.append_assoc, List.nil_append,
                    paired_cons_logInfo, paired_cons_logError, paired_append_ask,
                    pairedWith_pair, paired_append_execs]
                  exact pairedWith_all_plain _ _ (ask_events_plain _ _)
                · cases b3 with
                  | false =>
                    simp only [stepSegments, hask, houtc, hres, hask2, hask3,
                      List.length_cons, List.length_nil, List.take_succ_cons, List.take_zero]
                    refine List.Forall₂.cons ?_ List.Forall₂.nil
                    simp only [List.cons_append, List.append_assoc, List.nil_append,
                      paired_cons_logInfo, paired_cons_logError, paired_append_ask,
                      pairedWith_pair, paired_append_execs, paired_nil]
                  | true =>
                    simp only [stepSegments, hask, houtc, hres, hask2, hask3,
                      List.length_cons, List.take_succ_cons]
                    refine List.Forall₂.cons ?_ (ih _ _)
                    simp only [List.cons_append, List.append_assoc, List.nil_append,
                      paired_cons_logInfo, paired_cons_logError, paired_append_ask,
                      pairedWith_pair, paired_append_execs]
                    exact pairedWith_all_plain _ _ (ask_events_plain _ _)
          · rcases hask3 : (ask_user_permission "Continue to next step?" i1).2
              with _ | ⟨b3, i3⟩
            · simp only [stepSegments, hask, houtc, hres, hask3, List.length_cons,
                List.length_nil, List.take_succ_cons, List.take_zero]
              refine List.Forall₂.cons ?_ List.Forall₂.nil
              simp only [List.cons_append, List.append_assoc, List.nil_append,
                paired_cons_logInfo, paired_append_ask, pairedWith_pair, paired_append_execs]
              exact pairedWith_all_plain _ _ (ask_events_plain _ _)
            · cases b3 with
              | false =>
                simp only [stepSegments, hask, houtc, hres, hask3, List.length_cons,
                  List.length_nil, List.take_succ_cons, List.take_zero]
                refine List.Forall₂.cons ?_ List.Forall₂.nil
                simp only [List.cons_append, List.append_assoc, List.nil_append,
                  paired_cons_logInfo, paired_append_ask, pairedWith_pair,
                  paired_append_execs, paired_nil]
              | true =>
                simp only [stepSegments, hask, houtc, hres, hask3, List.length_cons,
                  List.take_succ_cons]
                refine List.Forall₂.cons ?_ (ih _ _)
                simp only [List.cons_append, List.append_assoc, List.nil_append,
                  paired_cons_logInfo, paired_append_ask, pairedWith_pair, paired_append_execs]
                exact pairedWith_all_plain _ _ (ask_events_plain _ _)

/-- Claim C7: before every submission to the orchestrator the crew's
task list is fully replaced with exactly the three tasks of the current
step.  Formally: the step loop's trace is the concatenation of one
segment per loop iteration; the i-th segment — the events of the
iteration whose current step is the i-th step — has every kickoff
immediately preceded by a full replacement (`crew.tasks = ...`) with
the very list the kickoff uses, and that list is exactly
`mkTasks` of that i-th (current) step; and `mkTasks` of any step is
exactly three tasks in the order executor task, analyzer task,
remediator task, each assigned to its corresponding agent. -/
theorem debug_issue_tasks_replaced_current (st : AgentState) (steps : List DebugStep)
    (w : World) :
    (runSteps st steps w).1 = (stepSegments st steps w).flatten
      ∧ List.Forall₂ (fun s seg => pairedWith (mkTasks s) seg = true)
          (steps.take (stepSegments st steps w).length) (stepSegments st steps w)
      ∧ ∀ s : DebugStep, (mkTasks s).map TaskSpec.agent
          = [AgentRole.executor, AgentRole.analyzer, AgentRole.remediator] :=
  ⟨runSteps_eq_flatten_stepSegments steps st w, stepSegments_pairedWith steps st w,
   fun s => by simp [mkTasks]⟩

end AiSupportAgent
